import Mathlib

/-
Verification of the face-detection service (src/app.py) against its
specification. The embedding delegates the external face-recognition
library to parameters: an abstract encoding type and a distance function
producing rationals; the retry loop's outbound calls are a function from
attempt index to result. Machine floats are modelled by exact rationals.
-/

namespace FaceApp

/-- Configuration constant CONFIG.TOLERANCE = 0.5 in app.py. -/
def TOLERANCE : ℚ := 1/2

/-- Configuration constant CONFIG.MAX_RETRIES = 3 in app.py. -/
def MAX_RETRIES : Nat := 3

/-- Configuration constant CONFIG.RETRY_DELAY = 1 second in app.py. -/
def RETRY_DELAY : Nat := 1

/-- Configuration constant CONFIG.MIN_CONFIDENCE = 65.0 in app.py. -/
def MIN_CONFIDENCE : ℚ := 65

/-- Two-digit zero-padded rendering of a natural number below 100. -/
def pad2 (n : Nat) : String :=
  if n < 10 then "0" ++ toString n else toString n

/-- Rendering of a rational to two decimal places, as the Python f-string
conversion .2f does (round to the nearest hundredth). -/
def format2 (q : ℚ) : String :=
  (if q < 0 then "-" else "")
    ++ toString ((round (|q| * 100)).toNat / 100) ++ "."
    ++ pad2 ((round (|q| * 100)).toNat % 100)

/-- Library call face_recognition.compare_faces(encs, q, tolerance): one
boolean per known encoding, true iff the distance is within tolerance. -/
def compare_faces_lib {α β : Type} (dist : α → β → ℚ) (encs : List α) (q : β)
    (tol : ℚ) : List Bool :=
  encs.map (fun e => decide (dist e q ≤ tol))

/-- Library call face_recognition.face_distance(encs, q): the list of
distances from the query encoding to every known encoding. -/
def face_distance_lib {α β : Type} (dist : α → β → ℚ) (encs : List α) (q : β) :
    List ℚ :=
  encs.map (fun e => dist e q)

/-- Python str.lower over the characters of a string. -/
def lowerChars (s : String) : List Char := s.data.map Char.toLower

/-- Python str.endswith over character lists. -/
def endsWithChars (s : String) (sfx : String) : Bool :=
  List.isSuffixOf sfx.data (lowerChars s)

/-- The filename filter of load_known_faces:
filename.lower().endswith((".jpg", ".jpeg", ".png")). -/
def isImageName (s : String) : Bool :=
  endsWithChars s ".jpg" || endsWithChars s ".jpeg" || endsWithChars s ".png"

/-- Index of the last dot of a character list, if any. -/
def lastDotIdx (cs : List Char) : Option Nat :=
  ((List.range cs.length).filter (fun i => cs.getD i ' ' == '.')).getLast?

/-- Root part of os.path.splitext(filename)[0] for a plain filename: cut at
the last dot, unless every character before it is itself a dot. -/
def splitextRoot (s : String) : String :=
  match lastDotIdx s.data with
  | none => s
  | some i =>
      if (List.range i).any (fun j => !(s.data.getD j ' ' == '.')) then
        String.mk (s.data.take i)
      else s

/-- What decoding one gallery file and extracting its encodings yields:
the extracted encodings, or an exception message. -/
inductive FileRead (α : Type) where
  | ok (encs : List α)
  | err (msg : String)
  deriving DecidableEq

/-- The per-file loop body of load_known_faces over a directory listing:
skip names failing the suffix filter, skip files with zero encodings, skip
files whose processing raised, and for the rest append the first encoding
and the extension-stripped filename, in listing order. -/
def loadFiles {α : Type} : List (String × FileRead α) → List α × List String
  | [] => ([], [])
  | (fn, r) :: rest =>
      if isImageName fn then
        match r with
        | FileRead.ok (e :: _) =>
            let acc := loadFiles rest
            (e :: acc.1, splitextRoot fn :: acc.2)
        | FileRead.ok [] => loadFiles rest
        | FileRead.err _ => loadFiles rest
      else loadFiles rest

/-- load_known_faces of app.py: empty gallery when the directory is
missing, otherwise the fold over the directory listing. -/
def load_known_faces {α : Type} (dirExists : Bool)
    (files : List (String × FileRead α)) : List α × List String :=
  if dirExists then loadFiles files else ([], [])

/-- Result of one outbound HTTP POST in send_to_nodejs: a response with a
status code and parsed body, or a network-level requests.RequestException. -/
inductive CallResult where
  | http (status : Nat) (body : String)
  | netErr (msg : String)
  deriving DecidableEq

/-- Whether a call result is a network-level failure. -/
def CallResult.isNetErr : CallResult → Bool
  | CallResult.netErr _ => true
  | CallResult.http _ _ => false

/-- Overall outcome of send_to_nodejs: the parsed 200 body, the
partial-success dictionary built for a non-200 status, or None. -/
inductive Outcome where
  | delivered (body : String)
  | partialSuccess (status : Nat)
  | failed
  deriving DecidableEq

/-- The retry loop of send_to_nodejs over the sequence of call results of
the remaining attempts. Returns the outcome, the number of outbound calls
made, and the number of RETRY_DELAY sleeps taken (the loop sleeps only
when a network error leaves attempts remaining). -/
def sendLoop : List CallResult → Outcome × Nat × Nat
  | [] => (Outcome.failed, 0, 0)
  | c :: rest =>
      match c with
      | CallResult.http s body =>
          if s = 200 then (Outcome.delivered body, 1, 0)
          else (Outcome.partialSuccess s, 1, 0)
      | CallResult.netErr _ =>
          let r := sendLoop rest
          (r.1, r.2.1 + 1, if rest.isEmpty then r.2.2 else r.2.2 + 1)

/-- send_to_nodejs(data, retries): run the attempt loop over attempts
0..retries-1, the i-th outbound call answering call i. -/
def send_to_nodejs (call : Nat → CallResult) (retries : Nat) :
    Outcome × Nat × Nat :=
  sendLoop ((List.range retries).map call)

/-- A JSON response body of the compare-face route. Absent keys are none;
node_response holds the dictionary returned by send_to_nodejs when it is
not None, node_status the fallback string. -/
structure Response where
  status : String
  message : String
  name : Option String
  confidence : Option String
  node_response : Option Outcome
  node_status : Option String
  deriving DecidableEq

/-- An error body: status error with a message, no other keys. -/
def errorResponse (msg : String) : Response :=
  { status := "error", message := msg, name := none, confidence := none,
    node_response := none, node_status := none }

/-- The no-match body returned after the loop over detected encodings. -/
def notFoundResponse : Response :=
  { status := "not_found", message := "No Match Found", name := none,
    confidence := some "0%", node_response := none, node_status := none }

/-- Python list.index(True) on a boolean list, guarded by membership:
position of the first true flag, if any. -/
def indexOfTrue : List Bool → Option Nat
  | [] => none
  | b :: rest => if b then some 0 else (indexOfTrue rest).map (· + 1)

/-- The per-encoding match block of compare_faces: compute the match flags
and distances against the gallery, and if some flag is true return the
name and confidence (1 - distance) * 100 of the first flagged entry.
The name lookup is modelled totally with a getD default. -/
def matchFirst {α β : Type} (dist : α → β → ℚ) (encs : List α)
    (names : List String) (tol : ℚ) (q : β) : Option (String × ℚ) :=
  match indexOfTrue (compare_faces_lib dist encs q tol) with
  | none => none
  | some i =>
      some (names.getD i "", (1 - (face_distance_lib dist encs q).getD i 0) * 100)

/-- The loop of compare_faces over the detected face encodings, in
detection order: the first encoding with a match produces the success
body (notifying Node.js when the confidence reaches MIN_CONFIDENCE) and
returns it at once; none is the fall-through to the not-found body.
The second component counts send_to_nodejs invocations. -/
def processEncodings {α β : Type} (dist : α → β → ℚ) (encs : List α)
    (names : List String) (call : Nat → CallResult) :
    List β → Option (Response × Nat)
  | [] => none
  | q :: rest =>
      match matchFirst dist encs names TOLERANCE q with
      | none => processEncodings dist encs names call rest
      | some (matched_name, confidence) =>
          let base : Response :=
            { status := "success",
              message := "Match Found! Name: " ++ matched_name,
              name := some matched_name,
              confidence := some (format2 confidence ++ "%"),
              node_response := none, node_status := none }
          if MIN_CONFIDENCE ≤ confidence then
            let outcome := (send_to_nodejs call MAX_RETRIES).1
            if outcome = Outcome.failed then
              some ({ base with
                      node_status :=
                        some "Data sent but no response from Node.js" }, 1)
            else
              some ({ base with node_response := some outcome }, 1)
          else
            some ({ base with
                    message := "Match found but confidence too low ("
                      ++ format2 confidence ++ "%)",
                    node_status :=
                      some "Data not sent due to low confidence" }, 0)

/-- The compare-face request handler. Inputs model the request (presence
of the image form field, the uploaded bytes) and the embedding provider's
behaviour on it (the extraction result: detected encodings, or the message
of a raised exception). Output: HTTP status code, response body, and the
number of send_to_nodejs invocations. -/
def compare_faces {α β : Type} (dist : α → β → ℚ) (encs : List α)
    (names : List String) (call : Nat → CallResult) (hasImageField : Bool)
    (image_data : List Nat) (extract : Except String (List β)) :
    Nat × Response × Nat :=
  if !hasImageField then
    (400, errorResponse "No image uploaded", 0)
  else if image_data.isEmpty then
    (400, errorResponse "Face recognition error: Empty image data", 0)
  else
    match extract with
    | Except.error e => (500, errorResponse ("Error processing the image: " ++ e), 0)
    | Except.ok face_encodings =>
        if face_encodings.isEmpty then
          (400, errorResponse "No face detected in uploaded image", 0)
        else
          match processEncodings dist encs names call face_encodings with
          | some (resp, n) => (200, resp, n)
          | none => (200, notFoundResponse, 0)

/-- Helper: indexOfTrue finds position i when the flag at i is true and all
earlier flags are false. -/
theorem indexOfTrue_eq_some_of (l : List Bool) :
    ∀ (i : Nat) (hi : i < l.length), l.get ⟨i, hi⟩ = true →
      (∀ k (hk : k < i), l.get ⟨k, hk.trans hi⟩ = false) →
      indexOfTrue l = some i := by
  induction l with
  | nil => intro i hi _ _; simp at hi
  | cons b t ih =>
      intro i hi h hf
      cases i with
      | zero =>
          simp only [List.get] at h
          simp [indexOfTrue, h]
      | succ j =>
          have hb : b = false := hf 0 (Nat.succ_pos j)
          have hjt : j < t.length := by simpa using hi
          have ht : indexOfTrue t = some j := by
            apply ih j hjt h
            intro k hk
            exact hf (k + 1) (Nat.succ_lt_succ hk)
          simp [indexOfTrue, hb, ht]

/-- Helper: a position found by indexOfTrue is inside the list. -/
theorem indexOfTrue_lt_length (l : List Bool) :
    ∀ i, indexOfTrue l = some i → i < l.length := by
  induction l with
  | nil => intro i h; simp [indexOfTrue] at h
  | cons b t ih =>
      intro i h
      by_cases hb : b
      · simp [indexOfTrue, hb] at h
        simp [← h]
      · simp [indexOfTrue, hb] at h
        obtain ⟨j, hj, rfl⟩ := h
        have := ih j hj
        simp
        omega

/-- Helper: leading encodings with no match are skipped by the loop over
detected encodings. -/
theorem processEncodings_skip {α β : Type} (dist : α → β → ℚ) (encs : List α)
    (names : List String) (call : Nat → CallResult) (pre qs : List β)
    (hpre : ∀ p ∈ pre, matchFirst dist encs names TOLERANCE p = none) :
    processEncodings dist encs names call (pre ++ qs)
      = processEncodings dist encs names call qs := by
  induction pre with
  | nil => rfl
  | cons p pre ih =>
      have hp : matchFirst dist encs names TOLERANCE p = none :=
        hpre p (List.mem_cons_self p pre)
      simp only [List.cons_append, processEncodings, hp]
      exact ih (fun x hx => hpre x (List.mem_cons_of_mem p hx))

/-- Helper: the loop result on a matching head encoding, written out as
the two threshold branches of the handler. -/
theorem processEncodings_cons_matched {α β : Type} (dist : α → β → ℚ)
    (encs : List α) (names : List String) (call : Nat → CallResult)
    (q : β) (rest : List β) (nm : String) (c : ℚ)
    (hq : matchFirst dist encs names TOLERANCE q = some (nm, c)) :
    processEncodings dist encs names call (q :: rest) =
      if MIN_CONFIDENCE ≤ c then
        (if (send_to_nodejs call MAX_RETRIES).1 = Outcome.failed then
          some ({ status := "success", message := "Match Found! Name: " ++ nm,
                  name := some nm, confidence := some (format2 c ++ "%"),
                  node_response := none,
                  node_status :=
                    some "Data sent but no response from Node.js" }, 1)
        else
          some ({ status := "success", message := "Match Found! Name: " ++ nm,
                  name := some nm, confidence := some (format2 c ++ "%"),
                  node_response := some (send_to_nodejs call MAX_RETRIES).1,
                  node_status := none }, 1))
      else
        some ({ status := "success",
                message := "Match found but confidence too low ("
                  ++ format2 c ++ "%)",
                name := some nm, confidence := some (format2 c ++ "%"),
                node_response := none,
                node_status := some "Data not sent due to low confidence" },
              0) := by
  simp only [processEncodings, hq]

/-- Helper: the handler on a well-formed request reduces to the loop over
the detected encodings. -/
theorem compare_faces_ok {α β : Type} (dist : α → β → ℚ) (encs : List α)
    (names : List String) (call : Nat → CallResult) (image_data : List Nat)
    (qs : List β) (hne : image_data.isEmpty = false)
    (hqs : qs.isEmpty = false) :
    compare_faces dist encs names call true image_data (Except.ok qs) =
      (match processEncodings dist encs names call qs with
       | some (resp, n) => (200, resp, n)
       | none => (200, notFoundResponse, 0)) := by
  simp [compare_faces, hne, hqs]

/-- Helper: the retry loop on an all-network-error attempt sequence makes
every call, sleeps between consecutive attempts, and fails. -/
theorem sendLoop_all_netErr (l : List CallResult)
    (h : ∀ c ∈ l, c.isNetErr = true) :
    sendLoop l = (Outcome.failed, l.length, l.length - 1) := by
  induction l with
  | nil => rfl
  | cons c t ih =>
      have hc : c.isNetErr = true := h c (List.mem_cons_self c t)
      cases c with
      | http s b => simp [CallResult.isNetErr] at hc
      | netErr m =>
          have ht := ih (fun x hx => h x (List.mem_cons_of_mem _ hx))
          have hstep : sendLoop (CallResult.netErr m :: t)
              = ((sendLoop t).1, (sendLoop t).2.1 + 1,
                 if t.isEmpty then (sendLoop t).2.2
                 else (sendLoop t).2.2 + 1) := rfl
          rw [hstep, ht]
          cases t with
          | nil => rfl
          | cons c2 t2 => simp

/-- Helper: the retry loop returns the failure outcome only when every
attempt ended in a network-level error. -/
theorem sendLoop_failed (l : List CallResult)
    (h : (sendLoop l).1 = Outcome.failed) : ∀ c ∈ l, c.isNetErr = true := by
  induction l with
  | nil => intro c hc; simp at hc
  | cons c t ih =>
      intro x hx
      cases c with
      | http s b =>
          by_cases hs : s = 200
          · simp [sendLoop, hs] at h
          · simp [sendLoop, hs] at h
      | netErr m =>
          have ht : (sendLoop t).1 = Outcome.failed := by
            simpa [sendLoop] using h
          rcases List.mem_cons.mp hx with rfl | hx2
          · rfl
          · exact ih ht x hx2

/-- Helper: the match block on a one-entry gallery whose entry is within
tolerance. -/
theorem matchFirst_singleton {α β : Type} (dist : α → β → ℚ) (e : α)
    (nm : String) (tol : ℚ) (q : β) (h : dist e q ≤ tol) :
    matchFirst dist [e] [nm] tol q = some (nm, (1 - dist e q) * 100) := by
  simp [matchFirst, compare_faces_lib, face_distance_lib, indexOfTrue,
    decide_eq_true h]

/-- Helper: the loop over detected encodings never invokes the notifier
more than once. -/
theorem processEncodings_calls_le_one {α β : Type} (dist : α → β → ℚ)
    (encs : List α) (names : List String) (call : Nat → CallResult)
    (qs : List β) : ∀ r n,
    processEncodings dist encs names call qs = some (r, n) → n ≤ 1 := by
  induction qs with
  | nil => intro r n h; simp [processEncodings] at h
  | cons q rest ih =>
      intro r n h
      simp only [processEncodings] at h
      cases hm : matchFirst dist encs names TOLERANCE q with
      | none =>
          rw [hm] at h
          exact ih r n h
      | some p =>
          obtain ⟨nm, c⟩ := p
          rw [hm] at h
          simp only at h
          split_ifs at h <;> simp only [Option.some.injEq, Prod.mk.injEq] at h
            <;> omega

/-- Helper: every request handled by compare_faces triggers at most one
send_to_nodejs invocation, on every code path. -/
theorem compare_faces_calls_le_one {α β : Type} (dist : α → β → ℚ)
    (encs : List α) (names : List String) (call : Nat → CallResult)
    (hasImageField : Bool) (image_data : List Nat)
    (extract : Except String (List β)) :
    (compare_faces dist encs names call hasImageField image_data
      extract).2.2 ≤ 1 := by
  cases hasImageField with
  | false => simp [compare_faces]
  | true =>
      by_cases hd : image_data.isEmpty
      · simp [compare_faces, hd]
      · cases extract with
        | error e => simp [compare_faces, hd]
        | ok qs =>
            by_cases hq : qs.isEmpty
            · simp [compare_faces, hd, hq]
            · rw [compare_faces_ok dist encs names call image_data qs
                (by simpa using hd) (by simpa using hq)]
              cases hp : processEncodings dist encs names call qs with
              | none => simp
              | some p =>
                  obtain ⟨resp, n⟩ := p
                  simpa using
                    processEncodings_calls_le_one dist encs names call qs
                      resp n hp

/-- C1: For every query embedding and every gallery, if at least one
gallery entry matches within tolerance, the Match Engine returns the first
matching entry in gallery (insertion) order, not the entry with minimum
distance: when the entry at index i matches and every earlier entry does
not, its name and its confidence are returned, whatever the distances of
the later entries — in particular even when a later matching entry is
strictly closer. -/
theorem c1_first_match_in_order_wins {α β : Type} (dist : α → β → ℚ)
    (encs : List α) (names : List String) (tol : ℚ) (q : β) (i : Nat)
    (hi : i < encs.length) (hmatch : dist (encs.get ⟨i, hi⟩) q ≤ tol)
    (hfirst : ∀ k (hk : k < i), ¬ dist (encs.get ⟨k, hk.trans hi⟩) q ≤ tol) :
    matchFirst dist encs names tol q
      = some (names.getD i "", (1 - dist (encs.get ⟨i, hi⟩) q) * 100) := by
  have hlen : i < (compare_faces_lib dist encs q tol).length := by
    simpa [compare_faces_lib] using hi
  have hflags : indexOfTrue (compare_faces_lib dist encs q tol) = some i := by
    apply indexOfTrue_eq_some_of _ i hlen
    · simp only [compare_faces_lib, List.get_eq_getElem, List.getElem_map,
        decide_eq_true_eq]
      exact hmatch
    · intro k hk
      simp only [compare_faces_lib, List.get_eq_getElem, List.getElem_map,
        decide_eq_false_iff_not]
      exact hfirst k hk
  have hd : (face_distance_lib dist encs q).getD i 0
      = dist (encs.get ⟨i, hi⟩) q := by
    have hil : i < (face_distance_lib dist encs q).length := by
      simpa [face_distance_lib] using hi
    simp [face_distance_lib, List.getD_eq_getElem?_getD,
      List.getElem?_eq_getElem (by simpa [face_distance_lib] using hi :
        i < (encs.map (fun e => dist e q)).length),
      List.getElem_map, List.get_eq_getElem]
  simp only [matchFirst, hflags, hd]

/-- Witness for C1, the spec's scenario: gallery alice then bob, query at
distance 3/10 to alice and 1/10 to bob (both within tolerance 1/2, bob
strictly closer); alice is returned, with confidence 70. -/
theorem c1_witness :
    matchFirst (fun (a : ℚ) (_ : Unit) => a) [3/10, 1/10] ["alice", "bob"]
      TOLERANCE () = some ("alice", 70) := by
  have h := c1_first_match_in_order_wins (fun (a : ℚ) (_ : Unit) => a)
    [3/10, 1/10] ["alice", "bob"] TOLERANCE () 0 (by norm_num)
    (by norm_num [TOLERANCE, List.get]) (fun k hk => absurd hk (Nat.not_lt_zero k))
  rw [h]
  norm_num [List.get, List.getD]

/-- C2: For every sequence of outbound-call results and positive attempt
bound, the notifier makes exactly one outbound call and returns the
delivered parsed body when the first attempt yields HTTP 200; makes
exactly one call with no retry and returns the partial-success outcome
with the status when the first attempt yields any non-200 status; makes
exactly retries calls with a sleep between consecutive attempts and
returns the failed outcome when every attempt ends in a network-level
error; and returns the failed outcome only in that case. -/
theorem c2_notifier_retry_behaviour (call : Nat → CallResult)
    (retries : Nat) (hr : 1 ≤ retries) :
    (∀ b, call 0 = CallResult.http 200 b →
       send_to_nodejs call retries = (Outcome.delivered b, 1, 0)) ∧
    (∀ s b, call 0 = CallResult.http s b → s ≠ 200 →
       send_to_nodejs call retries = (Outcome.partialSuccess s, 1, 0)) ∧
    ((∀ i, i < retries → (call i).isNetErr = true) →
       send_to_nodejs call retries = (Outcome.failed, retries, retries - 1)) ∧
    ((send_to_nodejs call retries).1 = Outcome.failed →
       ∀ i, i < retries → (call i).isNetErr = true) := by
  obtain ⟨n, rfl⟩ : ∃ n, retries = n + 1 := ⟨retries - 1, by omega⟩
  have hrange : (List.range (n + 1)).map call
      = call 0 :: (List.range n).map (fun i => call (i + 1)) := by
    rw [List.range_succ_eq_map]
    simp [List.map_map]
  refine ⟨?_, ?_, ?_, ?_⟩
  · intro b hb
    unfold send_to_nodejs
    rw [hrange, hb]
    simp [sendLoop]
  · intro s b hb hs
    unfold send_to_nodejs
    rw [hrange, hb]
    simp [sendLoop, hs]
  · intro hall
    unfold send_to_nodejs
    have hmem : ∀ c ∈ (List.range (n + 1)).map call, c.isNetErr = true := by
      intro c hc
      obtain ⟨i, hi, rfl⟩ := List.mem_map.mp hc
      exact hall i (List.mem_range.mp hi)
    rw [sendLoop_all_netErr _ hmem]
    simp
  · intro hfail i hi
    exact sendLoop_failed _ (by simpa [send_to_nodejs] using hfail) (call i)
      (List.mem_map_of_mem call (List.mem_range.mpr hi))

/-- Witness for C2: three attempts all timing out make three calls with
two sleeps and fail; a first-attempt 200 delivers in one call; a
first-attempt 404 makes one call and is a partial success. -/
theorem c2_witness :
    send_to_nodejs (fun _ => CallResult.netErr "timeout") 3
        = (Outcome.failed, 3, 2) ∧
    send_to_nodejs (fun _ => CallResult.http 200 "ok") 3
        = (Outcome.delivered "ok", 1, 0) ∧
    send_to_nodejs (fun _ => CallResult.http 404 "gone") 3
        = (Outcome.partialSuccess 404, 1, 0) := by
  refine ⟨?_, ?_, ?_⟩
  · have h := (c2_notifier_retry_behaviour
      (fun _ => CallResult.netErr "timeout") 3 (by norm_num)).2.2.1
    simpa using h (fun i _ => rfl)
  · exact (c2_notifier_retry_behaviour
      (fun _ => CallResult.http 200 "ok") 3 (by norm_num)).1 "ok" rfl
  · exact ((c2_notifier_retry_behaviour
      (fun _ => CallResult.http 404 "gone") 3 (by norm_num)).2.1) 404 "gone"
      rfl (by norm_num)

/-- C3: For every request whose first matching embedding yields
confidence c, the handler invokes the notifier exactly once when
c reaches the threshold MIN_CONFIDENCE, and invokes it zero times, with
the response message stating that the confidence was too low, when c is
below the threshold. -/
theorem c3_confidence_threshold_gate {α β : Type} (dist : α → β → ℚ)
    (encs : List α) (names : List String) (call : Nat → CallResult)
    (image_data : List Nat) (pre : List β) (q : β) (rest : List β)
    (nm : String) (c : ℚ) (hne : image_data.isEmpty = false)
    (hpre : ∀ p ∈ pre, matchFirst dist encs names TOLERANCE p = none)
    (hq : matchFirst dist encs names TOLERANCE q = some (nm, c)) :
    (MIN_CONFIDENCE ≤ c →
       (compare_faces dist encs names call true image_data
          (Except.ok (pre ++ q :: rest))).2.2 = 1) ∧
    (c < MIN_CONFIDENCE →
       (compare_faces dist encs names call true image_data
          (Except.ok (pre ++ q :: rest))).2.2 = 0 ∧
       (compare_faces dist encs names call true image_data
          (Except.ok (pre ++ q :: rest))).2.1.message
         = "Match found but confidence too low (" ++ format2 c ++ "%)") := by
  rw [compare_faces_ok dist encs names call image_data _ hne (by simp),
    processEncodings_skip dist encs names call pre (q :: rest) hpre,
    processEncodings_cons_matched dist encs names call q rest nm c hq]
  constructor
  · intro hc
    rw [if_pos hc]
    by_cases hf : (send_to_nodejs call MAX_RETRIES).1 = Outcome.failed
    · rw [if_pos hf]
    · rw [if_neg hf]
  · intro hc
    rw [if_neg (not_le.mpr hc)]
    exact ⟨rfl, rfl⟩

/-- Witness for C3: a match at distance 3/10 (confidence 70, above the
threshold) triggers one notifier call; a match at distance 2/5
(confidence 60, below 65) triggers none and reports low confidence. -/
theorem c3_witness :
    (compare_faces (fun (a : ℚ) (_ : Unit) => a) [3/10] ["alice"]
        (fun _ => CallResult.http 200 "ok") true [1]
        (Except.ok [()])).2.2 = 1 ∧
    (compare_faces (fun (a : ℚ) (_ : Unit) => a) [2/5] ["alice"]
        (fun _ => CallResult.http 200 "ok") true [1]
        (Except.ok [()])).2.2 = 0 ∧
    (compare_faces (fun (a : ℚ) (_ : Unit) => a) [2/5] ["alice"]
        (fun _ => CallResult.http 200 "ok") true [1]
        (Except.ok [()])).2.1.message
      = "Match found but confidence too low ("
          ++ format2 ((1 - 2/5) * 100) ++ "%)" := by
  have hm1 := matchFirst_singleton (fun (a : ℚ) (_ : Unit) => a) (3/10)
    "alice" TOLERANCE () (by norm_num [TOLERANCE])
  have hm2 := matchFirst_singleton (fun (a : ℚ) (_ : Unit) => a) (2/5)
    "alice" TOLERANCE () (by norm_num [TOLERANCE])
  have h1 := (c3_confidence_threshold_gate (fun (a : ℚ) (_ : Unit) => a)
    [3/10] ["alice"] (fun _ => CallResult.http 200 "ok") [1] [] () []
    "alice" ((1 - 3/10) * 100) rfl (by simp) hm1).1
    (by norm_num [MIN_CONFIDENCE])
  have h2 := (c3_confidence_threshold_gate (fun (a : ℚ) (_ : Unit) => a)
    [2/5] ["alice"] (fun _ => CallResult.http 200 "ok") [1] [] () []
    "alice" ((1 - 2/5) * 100) rfl (by simp) hm2).2
    (by norm_num [MIN_CONFIDENCE])
  exact ⟨h1, h2.1, h2.2⟩

/-- C4: For every matched gallery entry with distance d, the reported
confidence string is (1 - d) * 100 rendered to two decimal places with a
trailing percent sign, with no clamping applied: the formula holds for
every rational d, including distances outside [0, 1], whose out-of-range
confidence is reported as-is. -/
theorem c4_confidence_formula {α β : Type} (dist : α → β → ℚ)
    (encs : List α) (names : List String) (call : Nat → CallResult)
    (image_data : List Nat) (q : β) (rest : List β) (i : Nat) (d : ℚ)
    (hne : image_data.isEmpty = false)
    (hidx : indexOfTrue (compare_faces_lib dist encs q TOLERANCE) = some i)
    (hd : (face_distance_lib dist encs q).getD i 0 = d) :
    (compare_faces dist encs names call true image_data
       (Except.ok (q :: rest))).2.1.confidence
      = some (format2 ((1 - d) * 100) ++ "%") := by
  have hm : matchFirst dist encs names TOLERANCE q
      = some (names.getD i "", (1 - d) * 100) := by
    simp only [matchFirst, hidx]
    rw [hd]
  rw [compare_faces_ok dist encs names call image_data _ hne (by simp),
    processEncodings_cons_matched dist encs names call q rest _ _ hm]
  by_cases hc : MIN_CONFIDENCE ≤ (1 - d) * 100
  · rw [if_pos hc]
    by_cases hf : (send_to_nodejs call MAX_RETRIES).1 = Outcome.failed
    · rw [if_pos hf]
    · rw [if_neg hf]
  · rw [if_neg hc]

/-- Witness for C4: a gallery entry at distance -1/5 (outside [0, 1])
matches and its confidence is reported unclamped as 120.00 percent. -/
theorem c4_witness :
    (compare_faces (fun (a : ℚ) (_ : Unit) => a) [(-1 : ℚ)/5] ["alice"]
        (fun _ => CallResult.http 200 "ok") true [1]
        (Except.ok [()])).2.1.confidence = some "120.00%" := by
  have hidx : indexOfTrue (compare_faces_lib (fun (a : ℚ) (_ : Unit) => a)
      [(-1 : ℚ)/5] () TOLERANCE) = some 0 := by
    simp [compare_faces_lib, indexOfTrue,
      decide_eq_true (show (-1 : ℚ)/5 ≤ TOLERANCE by norm_num [TOLERANCE])]
  have h := c4_confidence_formula (fun (a : ℚ) (_ : Unit) => a)
    [(-1 : ℚ)/5] ["alice"] (fun _ => CallResult.http 200 "ok") [1] () [] 0
    ((-1 : ℚ)/5) rfl hidx (by simp [face_distance_lib])
  rw [h, show ((1 : ℚ) - (-1)/5) * 100 = 120 from by norm_num]
  rw [show format2 (120 : ℚ) = "120.00" from by
    simp only [format2]
    rw [show |(120 : ℚ)| = 120 from abs_of_nonneg (by norm_num)]
    rw [show ((120 : ℚ) * 100) = 12000 from by norm_num]
    rw [round_ofNat, if_neg (by norm_num)]
    decide]
  rfl

/-- C5: For every uploaded image with multiple detected faces, the handler
evaluates detected embeddings in detection order and returns the success
response for the first embedding that matches any gallery entry without
evaluating the remaining embeddings (the result is unchanged whatever
follows that embedding); and every request triggers at most one notifier
call. -/
theorem c5_short_circuit {α β : Type} (dist : α → β → ℚ) (encs : List α)
    (names : List String) (call : Nat → CallResult) (image_data : List Nat)
    (pre : List β) (q : β) (rest rest' : List β) (nm : String) (c : ℚ)
    (hne : image_data.isEmpty = false)
    (hpre : ∀ p ∈ pre, matchFirst dist encs names TOLERANCE p = none)
    (hq : matchFirst dist encs names TOLERANCE q = some (nm, c)) :
    (compare_faces dist encs names call true image_data
        (Except.ok (pre ++ q :: rest))
      = compare_faces dist encs names call true image_data
        (Except.ok (pre ++ q :: rest'))) ∧
    (∀ (hasImageField : Bool) (idata : List Nat)
       (extract : Except String (List β)),
       (compare_faces dist encs names call hasImageField idata
         extract).2.2 ≤ 1) := by
  constructor
  · rw [compare_faces_ok dist encs names call image_data _ hne (by simp),
      compare_faces_ok dist encs names call image_data _ hne (by simp),
      processEncodings_skip dist encs names call pre (q :: rest) hpre,
      processEncodings_skip dist encs names call pre (q :: rest') hpre,
      processEncodings_cons_matched dist encs names call q rest nm c hq,
      processEncodings_cons_matched dist encs names call q rest' nm c hq]
  · intro hasImageField idata extract
    exact compare_faces_calls_le_one dist encs names call hasImageField
      idata extract

/-- Witness for C5: with a matching first face, adding a second detected
face does not change the response, and the notifier count of a concrete
request is at most one. -/
theorem c5_witness :
    (compare_faces (fun (a : ℚ) (_ : Unit) => a) [3/10] ["alice"]
        (fun _ => CallResult.http 200 "ok") true [1]
        (Except.ok [(), ()])
      = compare_faces (fun (a : ℚ) (_ : Unit) => a) [3/10] ["alice"]
        (fun _ => CallResult.http 200 "ok") true [1]
        (Except.ok [()])) ∧
    (compare_faces (fun (a : ℚ) (_ : Unit) => a) [3/10] ["alice"]
        (fun _ => CallResult.http 200 "ok") true [1]
        (Except.ok [(), ()])).2.2 ≤ 1 := by
  have hm := matchFirst_singleton (fun (a : ℚ) (_ : Unit) => a) (3/10)
    "alice" TOLERANCE () (by norm_num [TOLERANCE])
  have h := c5_short_circuit (fun (a : ℚ) (_ : Unit) => a) [3/10] ["alice"]
    (fun _ => CallResult.http 200 "ok") [1] [] () [()] [] "alice"
    ((1 - 3/10) * 100) rfl (by simp) hm
  exact ⟨h.1, h.2 true [1] (Except.ok [(), ()])⟩

/-- C6: For every request in which a match is found and the notifier is
invoked, the handler returns HTTP 200 regardless of the notification
outcome; a failed outcome is embedded as the node_status fallback string
and a partial-success outcome is embedded in node_response, never
escalating to a request-level error status. -/
theorem c6_notification_failure_soft {α β : Type} (dist : α → β → ℚ)
    (encs : List α) (names : List String) (call : Nat → CallResult)
    (image_data : List Nat) (q : β) (rest : List β) (nm : String) (c : ℚ)
    (hne : image_data.isEmpty = false)
    (hq : matchFirst dist encs names TOLERANCE q = some (nm, c))
    (hc : MIN_CONFIDENCE ≤ c) :
    (compare_faces dist encs names call true image_data
        (Except.ok (q :: rest))).1 = 200 ∧
    ((send_to_nodejs call MAX_RETRIES).1 = Outcome.failed →
       (compare_faces dist encs names call true image_data
          (Except.ok (q :: rest))).2.1.node_status
         = some "Data sent but no response from Node.js") ∧
    (∀ s, (send_to_nodejs call MAX_RETRIES).1 = Outcome.partialSuccess s →
       (compare_faces dist encs names call true image_data
          (Except.ok (q :: rest))).2.1.node_response
         = some (Outcome.partialSuccess s)) := by
  rw [compare_faces_ok dist encs names call image_data _ hne (by simp),
    processEncodings_cons_matched dist encs names call q rest nm c hq,
    if_pos hc]
  refine ⟨?_, ?_, ?_⟩
  · by_cases hf : (send_to_nodejs call MAX_RETRIES).1 = Outcome.failed
    · rw [if_pos hf]
    · rw [if_neg hf]
  · intro hf
    rw [if_pos hf]
  · intro s hs
    rw [hs]
    simp

/-- Witness for C6: a matched request whose downstream returns 404 still
answers 200 with the partial-success outcome embedded; one whose
downstream always times out still answers with the fallback
node_status string. -/
theorem c6_witness :
    (compare_faces (fun (a : ℚ) (_ : Unit) => a) [3/10] ["alice"]
        (fun _ => CallResult.http 404 "x") true [1]
        (Except.ok [()])).1 = 200 ∧
    (compare_faces (fun (a : ℚ) (_ : Unit) => a) [3/10] ["alice"]
        (fun _ => CallResult.http 404 "x") true [1]
        (Except.ok [()])).2.1.node_response
      = some (Outcome.partialSuccess 404) ∧
    (compare_faces (fun (a : ℚ) (_ : Unit) => a) [3/10] ["alice"]
        (fun _ => CallResult.netErr "t") true [1]
        (Except.ok [()])).2.1.node_status
      = some "Data sent but no response from Node.js" := by
  have hm := matchFirst_singleton (fun (a : ℚ) (_ : Unit) => a) (3/10)
    "alice" TOLERANCE () (by norm_num [TOLERANCE])
  have h1 := c6_notification_failure_soft (fun (a : ℚ) (_ : Unit) => a)
    [3/10] ["alice"] (fun _ => CallResult.http 404 "x") [1] () [] "alice"
    ((1 - 3/10) * 100) rfl hm (by norm_num [MIN_CONFIDENCE])
  have h2 := c6_notification_failure_soft (fun (a : ℚ) (_ : Unit) => a)
    [3/10] ["alice"] (fun _ => CallResult.netErr "t") [1] () [] "alice"
    ((1 - 3/10) * 100) rfl hm (by norm_num [MIN_CONFIDENCE])
  exact ⟨h1.1, h1.2.2 404 rfl, h2.2.1 rfl⟩

/-- C7: The handler returns a 400 client error with status error and the
exact message for each validation failure: missing image field, empty
uploaded bytes, and zero extracted embeddings. -/
theorem c7_validation_errors {α β : Type} (dist : α → β → ℚ)
    (encs : List α) (names : List String) (call : Nat → CallResult) :
    (∀ (image_data : List Nat) (extract : Except String (List β)),
       compare_faces dist encs names call false image_data extract
         = (400, errorResponse "No image uploaded", 0)) ∧
    (∀ extract : Except String (List β),
       compare_faces dist encs names call true [] extract
         = (400, errorResponse "Face recognition error: Empty image data",
            0)) ∧
    (∀ image_data : List Nat, image_data.isEmpty = false →
       compare_faces dist encs names call true image_data
           (Except.ok ([] : List β))
         = (400, errorResponse "No face detected in uploaded image", 0)) ∧
    (∀ m, (errorResponse m).status = "error") := by
  refine ⟨?_, ?_, ?_, ?_⟩
  · intro image_data extract
    rfl
  · intro extract
    rfl
  · intro image_data hne
    simp [compare_faces, hne]
  · intro m
    rfl

/-- Witness for C7: the three validation failures on concrete requests. -/
theorem c7_witness :
    compare_faces (fun (a : ℚ) (_ : Unit) => a) [] []
        (fun _ => CallResult.netErr "t") false [1] (Except.ok [()])
      = (400, errorResponse "No image uploaded", 0) ∧
    compare_faces (fun (a : ℚ) (_ : Unit) => a) [] []
        (fun _ => CallResult.netErr "t") true [] (Except.ok [()])
      = (400, errorResponse "Face recognition error: Empty image data", 0) ∧
    compare_faces (fun (a : ℚ) (_ : Unit) => a) [] []
        (fun _ => CallResult.netErr "t") true [1]
        (Except.ok ([] : List Unit))
      = (400, errorResponse "No face detected in uploaded image", 0) := by
  have h := c7_validation_errors (fun (a : ℚ) (_ : Unit) => a) [] []
    (fun _ => CallResult.netErr "t")
  exact ⟨h.1 [1] (Except.ok [()]), h.2.1 (Except.ok [()]), h.2.2.1 [1] rfl⟩

/-- C8: For every request in which no detected embedding matches any
gallery entry — in particular every query against an empty gallery — the
handler returns HTTP 200 with the not-found body, whose shape (status
not_found, message No Match Found, null name, confidence 0 percent) is
distinct from the 400 no-face error. -/
theorem c8_not_found {α β : Type} (dist : α → β → ℚ) (encs : List α)
    (names : List String) (call : Nat → CallResult) (image_data : List Nat)
    (qs : List β) (hne : image_data.isEmpty = false)
    (hqs : qs.isEmpty = false)
    (hnone : ∀ p ∈ qs, matchFirst dist encs names TOLERANCE p = none) :
    compare_faces dist encs names call true image_data (Except.ok qs)
      = (200, notFoundResponse, 0) ∧
    (∀ (names2 : List String) (tol : ℚ) (p : β),
       matchFirst dist ([] : List α) names2 tol p = none) ∧
    notFoundResponse.status = "not_found" ∧
    notFoundResponse.message = "No Match Found" ∧
    notFoundResponse.name = none ∧
    notFoundResponse.confidence = some "0%" := by
  refine ⟨?_, ?_, rfl, rfl, rfl, rfl⟩
  · have hp : processEncodings dist encs names call qs = none := by
      have h0 := processEncodings_skip dist encs names call qs [] hnone
      rw [List.append_nil] at h0
      exact h0
    rw [compare_faces_ok dist encs names call image_data qs hne hqs, hp]
  · intro names2 tol p
    rfl

/-- Witness for C8: a valid one-face query against the empty gallery
answers 200 with the not-found body. -/
theorem c8_witness :
    compare_faces (fun (a : ℚ) (_ : Unit) => a) ([] : List ℚ) []
        (fun _ => CallResult.netErr "t") true [1] (Except.ok [()])
      = (200, notFoundResponse, 0) := by
  exact (c8_not_found (fun (a : ℚ) (_ : Unit) => a) [] []
    (fun _ => CallResult.netErr "t") [1] [()] rfl rfl
    (fun p _ => rfl)).1

/-- C9: The gallery loader returns an empty gallery when the directory is
missing; skips files not named with a jpg, jpeg or png suffix; skips
files with zero detected faces and files whose processing raised,
continuing with the rest; appends only the first embedding of a file
under the extension-stripped filename; and performs no deduplication, so
a duplicated source file yields two entries. -/
theorem c9_gallery_loader {α : Type} (files : List (String × FileRead α))
    (fn : String) (r : FileRead α) (rest : List (String × FileRead α))
    (e : α) (es : List α) (m : String) :
    (load_known_faces false files = ([], [])) ∧
    (isImageName fn = false → loadFiles ((fn, r) :: rest) = loadFiles rest) ∧
    (isImageName fn = true →
       loadFiles ((fn, FileRead.ok []) :: rest) = loadFiles rest) ∧
    (isImageName fn = true →
       loadFiles ((fn, FileRead.err m) :: rest) = loadFiles rest) ∧
    (isImageName fn = true →
       loadFiles ((fn, FileRead.ok (e :: es)) :: rest)
         = (e :: (loadFiles rest).1, splitextRoot fn :: (loadFiles rest).2)) ∧
    (isImageName fn = true →
       loadFiles [(fn, FileRead.ok (e :: es)), (fn, FileRead.ok (e :: es))]
         = ([e, e], [splitextRoot fn, splitextRoot fn])) := by
  refine ⟨rfl, ?_, ?_, ?_, ?_, ?_⟩
  · intro h
    simp [loadFiles, h]
  · intro h
    simp [loadFiles, h]
  · intro h
    simp [loadFiles, h]
  · intro h
    simp [loadFiles, h]
  · intro h
    simp [loadFiles, h]

/-- Witness for C9: concrete loader runs — missing directory, a text
file, an image with no face, a corrupt image, a two-face image named
Alice.JPG (case-insensitive suffix, extension stripped, first face
kept), and the same file listed twice yielding two entries. -/
theorem c9_witness :
    load_known_faces false [("Alice.JPG", FileRead.ok [(1 : Nat)])]
      = ([], []) ∧
    loadFiles [("notes.txt", FileRead.ok [(1 : Nat)])] = ([], []) ∧
    loadFiles [("ghost.png", FileRead.ok ([] : List Nat))] = ([], []) ∧
    loadFiles [("bad.jpeg", (FileRead.err "corrupt" : FileRead Nat))]
      = ([], []) ∧
    loadFiles [("Alice.JPG", FileRead.ok [(1 : Nat), 2])]
      = ([1], ["Alice"]) ∧
    loadFiles [("Alice.JPG", FileRead.ok [(1 : Nat), 2]),
               ("Alice.JPG", FileRead.ok [(1 : Nat), 2])]
      = ([1, 1], ["Alice", "Alice"]) := by
  have h1 := c9_gallery_loader [("Alice.JPG", FileRead.ok [(1 : Nat)])]
    "notes.txt" (FileRead.ok [(1 : Nat)]) [] 1 [] "corrupt"
  have h2 := c9_gallery_loader ([] : List (String × FileRead Nat))
    "ghost.png" (FileRead.ok ([] : List Nat)) [] 1 [] "corrupt"
  have h3 := c9_gallery_loader ([] : List (String × FileRead Nat))
    "bad.jpeg" (FileRead.err "corrupt") [] 1 [] "corrupt"
  have h4 := c9_gallery_loader ([] : List (String × FileRead Nat))
    "Alice.JPG" (FileRead.ok [(1 : Nat), 2]) [] 1 [2] "corrupt"
  refine ⟨h1.1, ?_, ?_, ?_, ?_, ?_⟩
  · rw [h1.2.1 (by decide)]
    rfl
  · rw [h2.2.2.1 (by decide)]
    rfl
  · rw [h3.2.2.2.1 (by decide)]
    rfl
  · rw [h4.2.2.2.2.1 (by decide)]
    decide
  · rw [h4.2.2.2.2.2 (by decide)]
    decide

/-- C10: The loader appends encodings and names in lockstep, so the two
lists always have equal length; hence the index of the first true match
flag — a list as long as the encodings — is always a valid index into
the names, and the name lookup cannot go out of bounds. -/
theorem c10_lockstep_invariant {α β : Type} :
    (∀ (dirExists : Bool) (files : List (String × FileRead α)),
       (load_known_faces dirExists files).1.length
         = (load_known_faces dirExists files).2.length) ∧
    (∀ (dist : α → β → ℚ) (encs : List α) (names : List String) (q : β)
       (tol : ℚ) (i : Nat), encs.length = names.length →
       indexOfTrue (compare_faces_lib dist encs q tol) = some i →
       i < names.length) := by
  constructor
  · intro dirExists files
    cases dirExists with
    | false => rfl
    | true =>
        show (loadFiles files).1.length = (loadFiles files).2.length
        induction files with
        | nil => rfl
        | cons f rest ih =>
            obtain ⟨fn, r⟩ := f
            by_cases h : isImageName fn
            · cases r with
              | ok encs2 =>
                  cases encs2 with
                  | nil => simpa [loadFiles, h] using ih
                  | cons e es => simpa [loadFiles, h] using ih
              | err m => simpa [loadFiles, h] using ih
            · simpa [loadFiles, h] using ih
  · intro dist encs names q tol i hlen hidx
    have hlt := indexOfTrue_lt_length _ i hidx
    simpa [compare_faces_lib, hlen] using hlt

/-- Witness for C10: a concrete loaded gallery has lists of equal length,
and a concrete first-true index is a valid name index. -/
theorem c10_witness :
    (load_known_faces true [("a.jpg", FileRead.ok [(1 : Nat)]),
        ("b.png", FileRead.err "x")]).1.length
      = (load_known_faces true [("a.jpg", FileRead.ok [(1 : Nat)]),
        ("b.png", FileRead.err "x")]).2.length ∧
    (0 : Nat) < (["alice"] : List String).length := by
  constructor
  · exact (c10_lockstep_invariant (α := Nat) (β := Unit)).1 true
      [("a.jpg", FileRead.ok [(1 : Nat)]), ("b.png", FileRead.err "x")]
  · apply (c10_lockstep_invariant (α := Nat) (β := Unit)).2
      (fun _ _ => (0 : ℚ)) [1] ["alice"] () TOLERANCE 0 rfl
    simp [compare_faces_lib, indexOfTrue,
      decide_eq_true (show (0 : ℚ) ≤ TOLERANCE by norm_num [TOLERANCE])]

end FaceApp
